import Mathlib

/-!
Verification of the multi-camera object-detection pipeline (`app.py`).

The program has three parts, each embedded below:

* `CircularQueue` — a thread-safe bounded queue built on
  `collections.deque(maxlen=max_size)`: `put` is `appendleft`, `get_nowait`
  is `pop` (from the right end) raising `queue.Empty` when empty, and `get`
  is a poll loop that retries `pop` and sleeps `0.01` seconds on each
  `IndexError`.  We model the deque as a `List` whose head is the newest
  (left) end and whose last element is the oldest (right) end, so
  `appendleft` is `cons` followed by truncation to `maxlen`, and `pop`
  removes the last element.

* `CameraThread` — a worker owning one `CircularQueue 2`, a stop event, and
  a `_prev_results` cache; its `get_results` consumer API and its
  detect-markup-publish loop (`_run_detection` / `run`).

* `main` — the orchestrator: a blocking fan-in over the workers in
  registration order, the composite frame built from `results[0]` and
  `results[1]`, the streamer text block, and the `finally` shutdown pass.

Blocking operations are embedded by making the environment explicit: the
blocking `get` receives the list of deque contents it observes at each pop
attempt, and the worker loop is a step machine whose external calls (frame
read, detection) are oracles with abstract durations.
-/

set_option autoImplicit false

namespace MultiCam

universe u

variable {α : Type u} {β : Type u}

/-! ### CircularQueue (`app.py` lines 9–28) -/

/-- Model of `collections.deque(maxlen=max_size)` wrapped by `CircularQueue.__init__`.
`queue` lists the elements left-to-right: the head is the newest element
(the `appendleft` end) and the last element is the oldest (the `pop` end).
`maxSize = none` models `max_size=None` (unbounded). -/
structure CircularQueue (α : Type u) where
  maxSize : Option Nat
  queue : List α
deriving DecidableEq

/-- Constructor `CircularQueue(max_size)`: a fresh empty deque. -/
def CircularQueue.mk' (max_size : Option Nat) : CircularQueue α :=
  { maxSize := max_size, queue := [] }

/-- Method `put(item)`: `self._queue.appendleft(item)`.  On a deque with
`maxlen=n`, `appendleft` inserts at the left and, when the deque is full,
silently discards one element from the opposite (right, i.e. oldest)
end — modelled by truncating `item :: queue` to its first `n` elements. -/
def CircularQueue.put (c : CircularQueue α) (item : α) : CircularQueue α :=
  match c.maxSize with
  | none => { c with queue := item :: c.queue }
  | some n => { c with queue := (item :: c.queue).take n }

/-- The `queue.Empty` exception raised by `get_nowait`. -/
inductive EmptySignal : Type
  | empty
deriving DecidableEq

/-- Method `get_nowait()`: `self._queue.pop()` returning the rightmost (oldest)
element, and `raise queue.Empty` when the deque is empty. -/
def CircularQueue.get_nowait (c : CircularQueue α) :
    Except EmptySignal (α × CircularQueue α) :=
  match c.queue.getLast? with
  | some x => .ok (x, { c with queue := c.queue.dropLast })
  | none => .error .empty

/-- The `time.sleep(0.01)` interval (in seconds) used by the blocking
`get` between failed pop attempts. -/
def sleepInterval : ℚ := 1 / 100

/-- The blocking `get()`: `while True: try: return pop() except IndexError:
sleep(0.01)`.  `states` is the sequence of deque contents observed at each
successive pop attempt (the producer may publish between attempts).  The
result is the popped (oldest) element of the first non-empty observation,
the deque contents it leaves behind, and the number of sleeps performed
before success; `none` means every observed state was empty, i.e. the call
has not returned within the observed trace. -/
def getLoop : List (List α) → Option (α × List α × Nat)
  | [] => none
  | s :: rest =>
    match s.getLast? with
    | some x => some (x, s.dropLast, 0)
    | none => (getLoop rest).map fun r => (r.1, r.2.1, r.2.2 + 1)

/-! Operation sequences over a queue, for the capacity/order invariant. -/

/-- One client operation on the results queue: a producer `put` (publish)
or a consumer `get_nowait` (take; a take on an empty queue is a no-op on
the state, the exception being handled by the caller). -/
inductive QueueOp (α : Type u) : Type u
  | publish (x : α)
  | take

/-- Apply one operation to the queue state. -/
def applyOp (c : CircularQueue α) : QueueOp α → CircularQueue α
  | .publish x => c.put x
  | .take =>
    match c.get_nowait with
    | .ok r => r.2
    | .error _ => c

/-- Run a sequence of operations from a fresh `CircularQueue(cap)`. -/
def runOps (cap : Nat) (ops : List (QueueOp α)) : CircularQueue α :=
  ops.foldl applyOp (CircularQueue.mk' (some cap))

/-! ### Data model: the published result dictionaries

`_run_detection` publishes `{"idx", "frame", "results", "model_id"}` where
`results` is the external detection result (`.duration`, `.predictions`
with `.label` and `.confidence`).  Frames are opaque row lists so that
`np.concatenate(..., axis=0)` is list append; durations and confidences
are abstract types (they are floats handled opaquely by the program). -/

/-- One prediction of the external detector: a label and a confidence. -/
structure Prediction (Conf : Type u) where
  label : String
  confidence : Conf
deriving DecidableEq

/-- The external `detect_objects` result: inference duration plus the
ordered prediction list. -/
structure DetectionResults (Dur Conf : Type u) where
  duration : Dur
  predictions : List (Prediction Conf)
deriving DecidableEq

/-- The `output_results` dictionary published by `_run_detection`:
camera index, (marked-up) frame, detection results, and model id.
A frame is a list of pixel rows, so vertical concatenation is `++`. -/
structure FrameResult (Row Dur Conf : Type u) where
  idx : Nat
  frame : List Row
  results : DetectionResults Dur Conf
  model_id : String
deriving DecidableEq

/-! ### CameraThread (`app.py` lines 31–122) -/

/-- The `edgeiq.Engine` selection (only `DNN` is used by the program). -/
inductive Engine : Type
  | DNN
deriving DecidableEq

/-- The fields of a `CameraThread` set up by `__init__`: camera index,
engine, model id, the results queue (`CircularQueue(2)`), the stop event
(a boolean flag, initially clear) and the `_prev_results` cache
(initially `None`). -/
structure CameraThread (α : Type u) where
  idx : Nat
  engine : Engine
  model_id : String
  results_q : CircularQueue α
  stop_event : Bool
  prev_results : Option α
deriving DecidableEq

/-- Constructor `CameraThread.__init__(camera_idx, engine, model_id)`. -/
def CameraThread.init (camera_idx : Nat) (engine : Engine) (model_id : String) :
    CameraThread α :=
  { idx := camera_idx
    engine := engine
    model_id := model_id
    results_q := CircularQueue.mk' (some 2)
    stop_event := false
    prev_results := none }

/-- Method `stop()`: prints a diagnostic and calls `self._stop_event.set()`; the
only state change is setting the flag. -/
def CameraThread.stop (t : CameraThread α) : CameraThread α :=
  { t with stop_event := true }

/-- Method `get_results(wait=False)`: try `get_nowait`; on success the popped
item is returned; on `queue.Empty` the cached `_prev_results` is used
instead; either way the chosen value is written back to `_prev_results`
before returning. -/
def CameraThread.get_results_nowait (t : CameraThread α) :
    Option α × CameraThread α :=
  match t.results_q.get_nowait with
  | .ok (r, q) => (some r, { t with results_q := q, prev_results := some r })
  | .error _ => (t.prev_results, { t with prev_results := t.prev_results })

/-- Method `get_results(wait=True)`: `return self._results_q.get()` — the
blocking poll loop, run on the deque contents observed at each attempt
(first the current contents, then `later` as the producer publishes).
Returns the popped item and the thread with its queue updated, or `none`
if the call stays blocked throughout the observed trace.  The
`_prev_results` cache is not touched by this path. -/
def CameraThread.get_results_wait (t : CameraThread α) (later : List (List α)) :
    Option (α × CameraThread α) :=
  match getLoop (t.results_q.queue :: later) with
  | some (r, q, _) => some (r, { t with results_q := { t.results_q with queue := q } })
  | none => none

/-- A sequence of `get_results(wait=True)` calls on one worker, each with
its own observed trace; a call that never unblocks leaves the state as is
(the program would hang there, making the later calls unreachable). -/
def doBlockingReads : CameraThread α → List (List (List α)) → CameraThread α
  | t, [] => t
  | t, tr :: traces =>
    match t.get_results_wait tr with
    | some v => doBlockingReads v.2 traces
    | none => doBlockingReads t traces

/-! ### The worker loop as a step machine (`_run_detection`, lines 91–110)

The body of `while True:` is, in order: `frame = video_stream.read()`;
`if self._stop_event.is_set(): break`; `detect_objects`; `markup_image`;
build `output_results`; `self._results_q.put(...)`; `self._fps.update()`.
Each program point of the body is a `WorkerPC`; one step runs one of these
actions.  External calls are oracles: `item k` is the `output_results`
value published by the `k`-th publish, and each action has an abstract
duration (in seconds) so that stop-to-exit latency can be measured. -/

/-- Program points of the detection loop body, plus the exited state. -/
inductive WorkerPC : Type
  | atRead
  | atCheck
  | atDetect
  | atMarkup
  | atPublish
  | atFps
  | exited
deriving DecidableEq

/-- Durations (seconds) of the loop body's actions: the frame read, the
inference, the markup, the publish and the FPS update.  The stop-flag
check itself is a flag test of negligible duration. -/
structure Durations : Type where
  dRead : ℚ
  dDetect : ℚ
  dMarkup : ℚ
  dPublish : ℚ
  dFps : ℚ
deriving DecidableEq

/-- All durations nonnegative. -/
def Durations.Nonneg (d : Durations) : Prop :=
  0 ≤ d.dRead ∧ 0 ≤ d.dDetect ∧ 0 ≤ d.dMarkup ∧ 0 ≤ d.dPublish ∧ 0 ≤ d.dFps

instance (d : Durations) : Decidable d.Nonneg := by
  unfold Durations.Nonneg; infer_instance

/-- State of the running detection loop: program point, the stop flag
(`self._stop_event`), the results queue, counters of completed reads,
inferences and publishes, and elapsed time. -/
structure WorkerLoopState (α : Type u) where
  pc : WorkerPC
  stopFlag : Bool
  q : CircularQueue α
  reads : Nat
  detects : Nat
  publishes : Nat
  time : ℚ
deriving DecidableEq

/-- One step of the detection loop.  The stop flag is consulted at
`atCheck` only — the single `if self._stop_event.is_set(): break` that sits
after the frame read and before the inference — and `exited` is absorbing
(the loop has broken). -/
def workerStep (d : Durations) (item : Nat → α) (s : WorkerLoopState α) :
    WorkerLoopState α :=
  match s.pc with
  | .atRead => { s with pc := .atCheck, reads := s.reads + 1, time := s.time + d.dRead }
  | .atCheck => if s.stopFlag then { s with pc := .exited } else { s with pc := .atDetect }
  | .atDetect => { s with pc := .atMarkup, detects := s.detects + 1, time := s.time + d.dDetect }
  | .atMarkup => { s with pc := .atPublish, time := s.time + d.dMarkup }
  | .atPublish =>
    { s with pc := .atFps, q := s.q.put (item s.publishes),
             publishes := s.publishes + 1, time := s.time + d.dPublish }
  | .atFps => { s with pc := .atRead, time := s.time + d.dFps }
  | .exited => s

/-- Run `n` steps of the detection loop. -/
def workerRun (d : Durations) (item : Nat → α) : Nat → WorkerLoopState α → WorkerLoopState α
  | 0, s => s
  | n + 1, s => workerRun d item n (workerStep d item s)

/-- Method `stop()` as seen by the loop: set the stop flag, change nothing else. -/
def setStopFlag (s : WorkerLoopState α) : WorkerLoopState α :=
  { s with stopFlag := true }

/-! ### Worker thread lifecycle (`run` / `_run_detection`, lines 77–122)

`run()` wraps `_run_detection()` in `try/finally`; the `finally` block
stops the FPS accumulator and prints its summary.  `_run_detection` loads
the model and enters `with WebcamVideoStream(...) as video_stream:`, whose
scope guarantees the capture release on every exit path of its body.  We
embed this as event traces: the loop body's events and outcome (normal
exit after a stop, or an unhandled exception `e`) are parameters, and the
`with`/`finally` structure determines which cleanup events surround them. -/

/-- Observable events of one worker thread's lifetime. -/
inductive WorkerEvent : Type
  | startMsg
  | loadModel
  | openCapture
  | warmUp
  | fpsStart
  | publish
  | releaseCapture
  | fpsStop
  | fpsSummary
  | exitMsg
deriving DecidableEq

/-- Outcome of the detection loop body: it either breaks normally (stop
observed) or an unhandled exception of type `E` escapes it. -/
def LoopOutcome (E : Type u) : Type u := Except E Unit

/-- The `with`-statement semantics for `WebcamVideoStream`: the capture is
opened, the body runs (producing events and an outcome), and the capture
is released on both the normal and the exceptional exit path, the
exception then continuing to propagate. -/
def withCapture {E : Type u} (bodyEvents : List WorkerEvent) (outcome : LoopOutcome E) :
    LoopOutcome E × List WorkerEvent :=
  (outcome, WorkerEvent.openCapture :: bodyEvents ++ [WorkerEvent.releaseCapture])

/-- Method `_run_detection()`: load the model (and print its diagnostics), then
run the warm-up sleep, `fps.start()` and the loop inside the capture's
`with` scope.  `loopEvents`/`loopOutcome` describe the loop body's run. -/
def run_detection {E : Type u} (loopEvents : List WorkerEvent) (loopOutcome : LoopOutcome E) :
    LoopOutcome E × List WorkerEvent :=
  let w := withCapture (WorkerEvent.warmUp :: WorkerEvent.fpsStart :: loopEvents) loopOutcome
  (w.1, WorkerEvent.loadModel :: w.2)

/-- Method `run()`: print the start message and call `_run_detection` once, with
a `finally` block that stops the FPS accumulator and prints the elapsed /
FPS summary and the exit message on every exit path; the outcome of
`_run_detection` (normal or exceptional) is the thread's outcome. -/
def runThread {E : Type u} (loopEvents : List WorkerEvent) (loopOutcome : LoopOutcome E) :
    LoopOutcome E × List WorkerEvent :=
  let d := run_detection loopEvents loopOutcome
  (d.1, WorkerEvent.startMsg :: d.2
        ++ [WorkerEvent.fpsStop, WorkerEvent.fpsSummary, WorkerEvent.exitMsg])

/-! ### The orchestrator (`main`, lines 125–170) -/

/-- One line of the text block sent to the streamer; the formatted string
is kept structured (the program only formats these fields into text). -/
inductive StreamerLine (Dur Conf : Type u) : Type u
  | cameraHeader (idx : Nat)
  | modelLine (model_id : String)
  | inferenceTime (duration : Dur)
  | objectsHeader
  | predictionLine (label : String) (confidence : Conf)
deriving DecidableEq

variable {Row Dur Conf : Type u}

/-- The lines the `for r in results:` body (lines 147–155) appends for one
non-`None` result: the camera header, model line, inference-time line, the
`Objects:` header, and one line per prediction. -/
def cameraText (r : FrameResult Row Dur Conf) : List (StreamerLine Dur Conf) :=
  [StreamerLine.cameraHeader r.idx,
   StreamerLine.modelLine r.model_id,
   StreamerLine.inferenceTime r.results.duration,
   StreamerLine.objectsHeader]
    ++ r.results.predictions.map (fun p => StreamerLine.predictionLine p.label p.confidence)

/-- One step of the text-building loop: `if r is not None:` append that
result's lines, otherwise leave the text as is. -/
def buildStep (text : List (StreamerLine Dur Conf))
    (r : Option (FrameResult Row Dur Conf)) : List (StreamerLine Dur Conf) :=
  match r with
  | none => text
  | some r => text ++ cameraText r

/-- The `for r in results:` text-building loop (lines 145–155), starting
from `text = []`. -/
def buildText (results : List (Option (FrameResult Row Dur Conf))) :
    List (StreamerLine Dur Conf) :=
  results.foldl buildStep []

/-- Line 159: `np.concatenate((results[0]["frame"], results[1]["frame"]),
axis=0)`.  The indexing is hard-coded to positions 0 and 1; an
out-of-range access (fewer than two results) is the `none` case, modelling
the `IndexError` the program would raise there. -/
def compositeFrame (results : List (FrameResult Row Dur Conf)) : Option (List Row) :=
  match results[0]?, results[1]? with
  | some r0, some r1 => some (r0.frame ++ r1.frame)
  | _, _ => none

/-- The fan-in of one main-loop iteration (lines 140–142): `for c in
cameras: results.append(c.get_results())` — a blocking `get_results` on
each worker, in registration order, each run against its current queue
contents only (succeeding exactly when that queue is non-empty; a worker
with an empty queue blocks the whole fan-in, making the rest of the
iteration unreachable, which `none` models). -/
def gatherResults : List (CameraThread (FrameResult Row Dur Conf)) →
    Option (List (FrameResult Row Dur Conf))
  | [] => some []
  | c :: cs =>
    match (c.get_results_wait []).map Prod.fst with
    | none => none
    | some r => (gatherResults cs).map (fun rs => r :: rs)

/-- One full main-loop iteration, lines 139–161: gather one result per
worker in registration order (blocking), build the text block, build the
composite frame, and send both.  `none` means the iteration is still
blocked in some worker's `get_results`. -/
def mainLoopIteration (cameras : List (CameraThread (FrameResult Row Dur Conf))) :
    Option (Option (List Row) × List (StreamerLine Dur Conf)) :=
  match gatherResults cameras with
  | none => none
  | some results => some (compositeFrame results, buildText (results.map some))

/-! ### Shutdown (`finally` block, lines 166–170) -/

/-- Observable orchestrator events during shutdown. -/
inductive MainEvent : Type
  | stopCalled (idx : Nat)
  | joinCalled (idx : Nat)
  | programEnding
deriving DecidableEq

/-- The `finally` loop `for c in cameras: c.stop(); c.join()`: each worker
in registration order has its stop flag set and is then joined (waited
for); the trace records the `stop`/`join` calls in program order. -/
def shutdownPass (cameras : List (CameraThread α)) :
    List (CameraThread α) × List MainEvent :=
  cameras.foldl
    (fun acc c =>
      (acc.1 ++ [c.stop], acc.2 ++ [MainEvent.stopCalled c.idx, MainEvent.joinCalled c.idx]))
    ([], [])

/-- Semantics of the `try/finally` in `main`: whatever the outcome of the loop body —
`Except.ok` for a normal `break`, `Except.error e` for an unrecovered
exception — the `finally` block runs the full shutdown pass and prints
`"Program Ending"`, and the outcome then propagates. -/
def mainFinally {E : Type u} (body : Except E Unit) (cameras : List (CameraThread α)) :
    Except E Unit × List (CameraThread α) × List MainEvent :=
  let s := shutdownPass cameras
  (body, s.1, s.2 ++ [MainEvent.programEnding])

/-! ## Helper lemmas -/

theorem take_append_take (n : Nat) (A B : List α) :
    (A ++ B.take n).take n = (A ++ B).take n := by
  simp only [List.take_append_eq_append_take, List.take_take]
  rw [Nat.min_eq_left (Nat.sub_le n A.length)]

/-- Popping from a deque whose rightmost (oldest) element is `a`. -/
theorem get_nowait_concat (q : CircularQueue α) (l : List α) (a : α)
    (h : q.queue = l ++ [a]) :
    q.get_nowait = .ok (a, { q with queue := l }) := by
  simp [CircularQueue.get_nowait, h, List.getLast?_concat, List.dropLast_concat]

/-- Popping from an empty deque raises `queue.Empty`. -/
theorem get_nowait_nil (q : CircularQueue α) (h : q.queue = []) :
    q.get_nowait = .error .empty := by
  simp [CircularQueue.get_nowait, h]

/-- An `appendleft` on a full bounded deque: the new element comes in at the
newest end and exactly the oldest element is dropped. -/
theorem put_full (q : CircularQueue α) (x : α) (cap : Nat)
    (hm : q.maxSize = some cap) (hl : q.queue.length = cap) (hc : 1 ≤ cap) :
    (q.put x).queue = x :: q.queue.dropLast := by
  simp only [CircularQueue.put, hm]
  show (x :: q.queue).take cap = x :: q.queue.dropLast
  obtain ⟨cap, rfl⟩ : ∃ m, cap = m + 1 := ⟨cap - 1, by omega⟩
  simp [List.take_succ_cons, List.dropLast_eq_take, hl]

/-- Any operation preserves the bound and the capacity field. -/
theorem applyOp_inv (cap : Nat) (q : CircularQueue α) (op : QueueOp α)
    (hm : q.maxSize = some cap) (hl : q.queue.length ≤ cap) :
    (applyOp q op).maxSize = some cap ∧ (applyOp q op).queue.length ≤ cap := by
  cases op with
  | publish x =>
    simp [applyOp, CircularQueue.put, hm, List.length_take]
  | take =>
    cases hq : q.queue.getLast? with
    | some a =>
      simp only [applyOp, CircularQueue.get_nowait, hq]
      refine ⟨hm, ?_⟩
      have := List.length_dropLast q.queue
      omega
    | none =>
      simp only [applyOp, CircularQueue.get_nowait, hq]
      exact ⟨hm, hl⟩

theorem foldl_applyOp_inv (cap : Nat) (ops : List (QueueOp α)) :
    ∀ (q : CircularQueue α), q.maxSize = some cap → q.queue.length ≤ cap →
      (ops.foldl applyOp q).maxSize = some cap ∧ (ops.foldl applyOp q).queue.length ≤ cap := by
  induction ops with
  | nil => exact fun q hm hl => ⟨hm, hl⟩
  | cons op ops ih =>
    intro q hm hl
    obtain ⟨hm', hl'⟩ := applyOp_inv cap q op hm hl
    exact ih (applyOp q op) hm' hl'

/-- Folding publishes into a bounded deque keeps the first `cap` of the
arrivals, newest first. -/
theorem foldl_put_queue (cap : Nat) (xs : List α) :
    ∀ (q : CircularQueue α), q.maxSize = some cap → q.queue.length ≤ cap →
      (xs.foldl CircularQueue.put q).queue = (xs.reverse ++ q.queue).take cap := by
  induction xs with
  | nil =>
    intro q _ hl
    simp [List.take_of_length_le hl]
  | cons x xs ih =>
    intro q hm hl
    have hput : (q.put x).maxSize = some cap ∧ (q.put x).queue = (x :: q.queue).take cap := by
      simp [CircularQueue.put, hm]
    have hlen : (q.put x).queue.length ≤ cap := by
      rw [hput.2]; simp [List.length_take]
    calc ((x :: xs).foldl CircularQueue.put q).queue
        = (xs.foldl CircularQueue.put (q.put x)).queue := rfl
      _ = (xs.reverse ++ (q.put x).queue).take cap := ih (q.put x) hput.1 hlen
      _ = (xs.reverse ++ (x :: q.queue).take cap).take cap := by rw [hput.2]
      _ = (xs.reverse ++ (x :: q.queue)).take cap := take_append_take cap _ _
      _ = ((x :: xs).reverse ++ q.queue).take cap := by
          simp [List.reverse_cons, List.append_assoc]

/-- Publish-only runs from a fresh queue retain the last `cap` arrivals. -/
theorem runOps_publish_queue (cap : Nat) (xs : List α) :
    (runOps cap (xs.map QueueOp.publish)).queue = xs.reverse.take cap := by
  have h : runOps cap (xs.map QueueOp.publish)
      = xs.foldl CircularQueue.put (CircularQueue.mk' (some cap)) := by
    rw [runOps, List.foldl_map]
    rfl
  rw [h, foldl_put_queue cap xs (CircularQueue.mk' (some cap)) rfl (by simp [CircularQueue.mk'])]
  simp [CircularQueue.mk']

/-- A `get_results(wait=False)` on an empty queue returns the cache and
leaves the thread state unchanged (the cache is rewritten with its own
value). -/
theorem get_results_nowait_empty (t : CameraThread α) (h : t.results_q.queue = []) :
    t.get_results_nowait = (t.prev_results, t) := by
  simp [CameraThread.get_results_nowait, get_nowait_nil t.results_q h]

/-- A `get_results(wait=False)` on a queue whose oldest element is `a`. -/
theorem get_results_nowait_pop (t : CameraThread α) (l : List α) (a : α)
    (h : t.results_q.queue = l ++ [a]) :
    t.get_results_nowait
      = (some a, { t with results_q := { t.results_q with queue := l },
                          prev_results := some a }) := by
  simp [CameraThread.get_results_nowait, get_nowait_concat t.results_q l a h]

/-- The value a blocking `get_results` returns against the current queue
contents alone is exactly the queue's oldest element (and the call stays
blocked exactly when the queue is empty). -/
theorem get_results_wait_fst (t : CameraThread α) :
    (t.get_results_wait []).map Prod.fst = t.results_q.queue.getLast? := by
  cases hq : t.results_q.queue.getLast? <;>
    simp [CameraThread.get_results_wait, getLoop, hq]

/-- A blocking `get_results` never changes `_prev_results`. -/
theorem get_results_wait_prev (t : CameraThread α) (later : List (List α))
    (r : α) (t' : CameraThread α) (h : t.get_results_wait later = some (r, t')) :
    t'.prev_results = t.prev_results := by
  unfold CameraThread.get_results_wait at h
  cases hg : getLoop (t.results_q.queue :: later) with
  | none => rw [hg] at h; cases h
  | some v =>
    rw [hg] at h
    obtain ⟨x, q, k⟩ := v
    cases h
    rfl

/-- Any sequence of blocking `get_results` calls leaves `_prev_results`
untouched. -/
theorem doBlockingReads_prev (traces : List (List (List α))) :
    ∀ (t : CameraThread α), (doBlockingReads t traces).prev_results = t.prev_results := by
  induction traces with
  | nil => intro t; rfl
  | cons tr traces ih =>
    intro t
    cases hw : t.get_results_wait tr with
    | none =>
      rw [doBlockingReads, hw]
      exact ih t
    | some v =>
      obtain ⟨r, t'⟩ := v
      rw [doBlockingReads, hw]
      rw [ih t']
      exact get_results_wait_prev t tr r t' hw

/-- Pulling the accumulator out of the text-building fold. -/
theorem foldl_buildStep_acc (results : List (Option (FrameResult Row Dur Conf))) :
    ∀ (acc : List (StreamerLine Dur Conf)),
      results.foldl buildStep acc = acc ++ results.foldl buildStep [] := by
  induction results with
  | nil => intro acc; simp
  | cons r rs ih =>
    intro acc
    have hstep : ∀ (a : List (StreamerLine Dur Conf)), buildStep a r = a ++ buildStep [] r := by
      intro a; cases r <;> simp [buildStep]
    rw [List.foldl_cons, List.foldl_cons, ih (buildStep acc r), ih (buildStep [] r),
      hstep acc, List.append_assoc]

/-- The text block decomposes as one `cameraText` group per non-`None`
result, in list order. -/
theorem buildText_cons (r : FrameResult Row Dur Conf)
    (rs : List (Option (FrameResult Row Dur Conf))) :
    buildText (some r :: rs) = cameraText r ++ buildText rs := by
  rw [buildText, List.foldl_cons, foldl_buildStep_acc]
  simp [buildStep, buildText]

/-- The shutdown fold, in closed form: every camera is stopped, and the
event trace is the `stop`/`join` pair of every camera in registration
order. -/
theorem shutdownPass_eq (cameras : List (CameraThread α)) :
    shutdownPass cameras
      = (cameras.map CameraThread.stop,
         cameras.flatMap fun c => [MainEvent.stopCalled c.idx, MainEvent.joinCalled c.idx]) := by
  have h : ∀ (cams : List (CameraThread α)) (acc : List (CameraThread α) × List MainEvent),
      cams.foldl
        (fun acc c =>
          (acc.1 ++ [c.stop], acc.2 ++ [MainEvent.stopCalled c.idx, MainEvent.joinCalled c.idx]))
        acc
      = (acc.1 ++ cams.map CameraThread.stop,
         acc.2 ++ cams.flatMap fun c => [MainEvent.stopCalled c.idx, MainEvent.joinCalled c.idx]) := by
    intro cams
    induction cams with
    | nil => intro acc; simp
    | cons c cs ih => intro acc; rw [List.foldl_cons, ih]; simp
  rw [shutdownPass, h]
  simp

/-! ## The claims -/

/-- C1: for every capacity `N ≥ 1` and every sequence of publish and take
operations, the queue holds at most `N` items at all times; after a
publish-only sequence the retained items, oldest to newest, are the most
recent publishes in arrival order; a publish onto a full queue evicts
exactly the single oldest item (never the newest); and takes remove items
oldest-first.  In particular (witness) with capacity 2, after publishing
`A, B, C` the queue holds `[B, C]` oldest-to-newest and the next take
returns `B`, leaving `C`. -/
theorem c1_queue_bounded_ordered (N : Nat) (hN : 1 ≤ N) :
    (∀ (ops : List (QueueOp α)) (i : Nat),
        (runOps N (ops.take i)).queue.length ≤ N)
    ∧ (∀ (xs : List α),
        (runOps N (xs.map QueueOp.publish)).queue.reverse = xs.drop (xs.length - N))
    ∧ (∀ (q : CircularQueue α) (x : α), q.maxSize = some N → q.queue.length = N →
        (q.put x).queue = x :: q.queue.dropLast)
    ∧ (∀ (q : CircularQueue α) (l : List α) (a : α), q.queue = l ++ [a] →
        q.get_nowait = .ok (a, { q with queue := l })) := by
  refine ⟨?_, ?_, ?_, ?_⟩
  · intro ops i
    exact (foldl_applyOp_inv N (ops.take i) (CircularQueue.mk' (some N)) rfl
      (by simp [CircularQueue.mk'])).2
  · intro xs
    rw [runOps_publish_queue, List.reverse_take]
    simp
  · intro q x hm hl
    exact put_full q x N hm hl hN
  · intro q l a h
    exact get_nowait_concat q l a h

/-- C1 witness: capacity 2, publishes `1, 2, 3` — the queue retains
`[2, 3]` oldest-to-newest and the next take returns `2` leaving `3`. -/
theorem c1_queue_bounded_ordered_witness :
    1 ≤ 2
    ∧ (runOps 2 ([1, 2, 3].map QueueOp.publish) : CircularQueue ℕ).queue.reverse = [2, 3]
    ∧ (runOps 2 ([1, 2, 3].map QueueOp.publish) : CircularQueue ℕ).get_nowait
        = .ok (2, { maxSize := some 2, queue := [3] }) := by
  refine ⟨by decide, ?_, ?_⟩
  · have h := (c1_queue_bounded_ordered (α := ℕ) 2 (by decide)).2.1 [1, 2, 3]
    simpa using h
  · have h := (c1_queue_bounded_ordered (α := ℕ) 2 (by decide)).2.2.2
      (runOps 2 ([1, 2, 3].map QueueOp.publish)) [3] 2 (by decide)
    simpa using h

/-- C5: `get_nowait` on a non-empty queue removes and returns the oldest
entry; on an empty queue it immediately raises `queue.Empty` — a
distinguished signal, constructor-distinct from every normal result. -/
theorem c5_take_nonblocking (q : CircularQueue α) :
    (∀ (l : List α) (a : α), q.queue = l ++ [a] →
        q.get_nowait = .ok (a, { q with queue := l }))
    ∧ (q.queue = [] → q.get_nowait = .error .empty)
    ∧ (∀ (r : α × CircularQueue α),
        (Except.error EmptySignal.empty : Except EmptySignal (α × CircularQueue α))
          ≠ Except.ok r) := by
  refine ⟨fun l a h => get_nowait_concat q l a h, fun h => get_nowait_nil q h, ?_⟩
  intro r h
  cases h

/-- C5 witness: popping `⟨some 2, [5, 7]⟩` (oldest element `7`) returns
`7` and leaves `[5]`; popping the fresh empty queue raises `Empty`. -/
theorem c5_take_nonblocking_witness :
    (⟨some 2, [5, 7]⟩ : CircularQueue ℕ).queue = [5] ++ [7]
    ∧ (⟨some 2, [5, 7]⟩ : CircularQueue ℕ).get_nowait = .ok (7, ⟨some 2, [5]⟩)
    ∧ (CircularQueue.mk' (some 2) : CircularQueue ℕ).get_nowait = .error .empty := by
  refine ⟨rfl, ?_, ?_⟩
  · exact (c5_take_nonblocking (⟨some 2, [5, 7]⟩ : CircularQueue ℕ)).1 [5] 7 rfl
  · exact (c5_take_nonblocking (CircularQueue.mk' (some 2) : CircularQueue ℕ)).2.1 rfl

/-- C2: `get_results(wait=False)`: on a non-empty queue the removed oldest
item becomes the new cached value and is returned; on an empty queue the
previously cached value is returned and the state is unchanged (the cache
is rewritten with its own value), so a repeated miss returns the same
value again; and on a freshly constructed worker (before any publish) it
returns `None` rather than raising. -/
theorem c2_get_results_nonblocking (t : CameraThread α) :
    (∀ (l : List α) (a : α), t.results_q.queue = l ++ [a] →
        t.get_results_nowait
          = (some a, { t with results_q := { t.results_q with queue := l },
                              prev_results := some a }))
    ∧ (t.results_q.queue = [] →
        t.get_results_nowait = (t.prev_results, t)
        ∧ t.get_results_nowait.2.get_results_nowait = (t.prev_results, t))
    ∧ (∀ (i : Nat) (e : Engine) (m : String),
        (CameraThread.init i e m : CameraThread α).get_results_nowait
          = (none, CameraThread.init i e m)) := by
  refine ⟨fun l a h => get_results_nowait_pop t l a h, fun h => ?_, fun i e m => rfl⟩
  have h1 := get_results_nowait_empty t h
  refine ⟨h1, ?_⟩
  rw [h1]
  exact h1

/-- C2 witness: a worker with queue `[5, 7]` (oldest `7`) and cache `9`
pops and caches `7`; a worker with an empty queue and cache `9` keeps
returning `9`; a fresh worker returns `None`. -/
theorem c2_get_results_nonblocking_witness :
    ({ (CameraThread.init 0 .DNN "m" : CameraThread ℕ) with
        results_q := ⟨some 2, [5, 7]⟩, prev_results := some 9 } : CameraThread ℕ
      ).get_results_nowait
      = (some 7, { (CameraThread.init 0 .DNN "m" : CameraThread ℕ) with
                    results_q := ⟨some 2, [5]⟩, prev_results := some 7 })
    ∧ ({ (CameraThread.init 0 .DNN "m" : CameraThread ℕ) with prev_results := some 9 } : CameraThread ℕ
        ).get_results_nowait
      = (some 9, { (CameraThread.init 0 .DNN "m" : CameraThread ℕ) with prev_results := some 9 })
    ∧ (CameraThread.init 0 .DNN "m" : CameraThread ℕ).get_results_nowait
      = (none, CameraThread.init 0 .DNN "m") := by
  refine ⟨?_, ?_, ?_⟩
  · exact (c2_get_results_nonblocking
      ({ (CameraThread.init 0 .DNN "m" : CameraThread ℕ) with
          results_q := ⟨some 2, [5, 7]⟩, prev_results := some 9 } : CameraThread ℕ)).1
      [5] 7 rfl
  · exact ((c2_get_results_nonblocking
      ({ (CameraThread.init 0 .DNN "m" : CameraThread ℕ) with prev_results := some 9 } : CameraThread ℕ)).2.1
      rfl).1
  · exact (c2_get_results_nonblocking
      (CameraThread.init 0 .DNN "m" : CameraThread ℕ)).2.2 0 .DNN "m"

/-- C9: the `wait=True` path of `get_results` neither reads nor writes the
`_prev_results` cache: its outcome is the same whatever the cache holds,
a successful blocking read leaves the cache untouched, any sequence of
blocking reads leaves it untouched, and a subsequent `wait=False` miss
still returns the value the cache held before those blocking reads. -/
theorem c9_wait_bypasses_cache (t : CameraThread α) :
    (∀ (later : List (List α)) (r : α) (t' : CameraThread α),
        t.get_results_wait later = some (r, t') → t'.prev_results = t.prev_results)
    ∧ (∀ (later : List (List α)) (p : Option α),
        ({ t with prev_results := p } : CameraThread α).get_results_wait later
          = (t.get_results_wait later).map fun rt =>
              (rt.1, { rt.2 with prev_results := p }))
    ∧ (∀ (traces : List (List (List α))),
        (doBlockingReads t traces).prev_results = t.prev_results)
    ∧ (∀ (traces : List (List (List α))),
        (doBlockingReads t traces).results_q.queue = [] →
          (doBlockingReads t traces).get_results_nowait.1 = t.prev_results) := by
  refine ⟨fun later r t' h => get_results_wait_prev t later r t' h, ?_, ?_, ?_⟩
  · intro later p
    cases hg : getLoop (t.results_q.queue :: later) with
    | none => simp [CameraThread.get_results_wait, hg]
    | some v =>
      obtain ⟨x, q, k⟩ := v
      simp [CameraThread.get_results_wait, hg]
  · intro traces
    exact doBlockingReads_prev traces t
  · intro traces h
    rw [get_results_nowait_empty _ h]
    exact doBlockingReads_prev traces t

/-- C9 witness: a worker with cache `9` and queue `[4]`; one blocking read
pops `4`, empties the queue, and a following non-blocking miss returns the
original cache `9`, not the blocking-read result `4`. -/
theorem c9_wait_bypasses_cache_witness :
    (doBlockingReads
        ({ (CameraThread.init 0 .DNN "m" : CameraThread ℕ) with
            results_q := ⟨some 2, [4]⟩, prev_results := some 9 } : CameraThread ℕ)
        [[]]).results_q.queue = []
    ∧ (doBlockingReads
        ({ (CameraThread.init 0 .DNN "m" : CameraThread ℕ) with
            results_q := ⟨some 2, [4]⟩, prev_results := some 9 } : CameraThread ℕ)
        [[]]).get_results_nowait.1 = some 9 := by
  refine ⟨rfl, ?_⟩
  exact (c9_wait_bypasses_cache
    ({ (CameraThread.init 0 .DNN "m" : CameraThread ℕ) with
        results_q := ⟨some 2, [4]⟩, prev_results := some 9 } : CameraThread ℕ)).2.2.2
    [[]] rfl

/-- C6: the blocking `get`: on a non-empty queue it removes and returns
the oldest entry immediately (zero sleeps); while the queue is empty it
does not return — every all-empty observation trace yields no result —
and it sleeps the fixed interval `sleepInterval` once between consecutive
pop attempts, so after `k` empty observations it has slept exactly `k`
times (total `k * sleepInterval` seconds) and then returns the first
available item; and `sleepInterval` is exactly 10 ms, so the loop yields
the processor between retries instead of spinning. -/
theorem c6_take_blocking :
    (∀ (l : List α) (a : α) (rest : List (List α)),
        getLoop ((l ++ [a]) :: rest) = some (a, l, 0))
    ∧ (∀ (k : Nat) (l : List α) (a : α) (rest : List (List α)),
        getLoop (List.replicate k [] ++ (l ++ [a]) :: rest) = some (a, l, k))
    ∧ (∀ (k : Nat), getLoop (List.replicate k ([] : List α)) = none)
    ∧ (∀ (k : Nat), (k : ℚ) * sleepInterval = k / 100)
    ∧ sleepInterval = 10 / 1000 := by
  have himm : ∀ (l : List α) (a : α) (rest : List (List α)),
      getLoop ((l ++ [a]) :: rest) = some (a, l, 0) := by
    intro l a rest
    simp [getLoop, List.getLast?_concat, List.dropLast_concat]
  refine ⟨himm, ?_, ?_, ?_, ?_⟩
  · intro k
    induction k with
    | zero => intro l a rest; simpa using himm l a rest
    | succ k ih =>
      intro l a rest
      rw [List.replicate_succ, List.cons_append]
      show getLoop ([] :: (List.replicate k [] ++ (l ++ [a]) :: rest)) = _
      rw [getLoop]
      simp [ih l a rest]
  · intro k
    induction k with
    | zero => rfl
    | succ k ih =>
      rw [List.replicate_succ, getLoop]
      simp [ih]
  · intro k
    rw [sleepInterval]
    ring
  · rw [sleepInterval]
    norm_num

/-- C4 (amended): `stop()` is idempotent and non-blocking — it only sets
the stop flag, changing nothing else; the loop consults the flag exactly
once per iteration (no step other than the one at `atCheck` depends on
it), positioned after the frame read and before the inference; the first
check that observes the flag set exits, and the exited state is absorbing;
and once the flag is set the loop exits within one full iteration — at
most 6 steps, at most one further inference and one further publish, and
at most one frame read plus one detect + markup + publish + FPS-update
cycle of elapsed time.  (The frame read does contribute to the latency
bound, because the loop performs its next frame read before the check
that observes the flag.) -/
theorem c4_stop_latency (d : Durations) (item : Nat → α) (hd : d.Nonneg) :
    (∀ (s : WorkerLoopState α),
        setStopFlag (setStopFlag s) = setStopFlag s
        ∧ (setStopFlag s).pc = s.pc ∧ (setStopFlag s).q = s.q
        ∧ (setStopFlag s).reads = s.reads ∧ (setStopFlag s).detects = s.detects
        ∧ (setStopFlag s).publishes = s.publishes ∧ (setStopFlag s).time = s.time)
    ∧ (∀ (s : WorkerLoopState α) (b : Bool), s.pc ≠ .atCheck →
        workerStep d item { s with stopFlag := b }
          = { workerStep d item s with stopFlag := b })
    ∧ (∀ (s : WorkerLoopState α), s.pc = .atRead → (workerStep d item s).pc = .atCheck)
    ∧ (∀ (s : WorkerLoopState α), s.pc = .atCheck → s.stopFlag = false →
        (workerStep d item s).pc = .atDetect)
    ∧ (∀ (s : WorkerLoopState α), s.pc = .atCheck → s.stopFlag = true →
        workerStep d item s = { s with pc := .exited })
    ∧ (∀ (s : WorkerLoopState α), s.pc = .exited → ∀ (n : Nat), workerRun d item n s = s)
    ∧ (∀ (s : WorkerLoopState α), s.stopFlag = true →
        (workerRun d item 6 s).pc = .exited
        ∧ (workerRun d item 6 s).detects ≤ s.detects + 1
        ∧ (workerRun d item 6 s).publishes ≤ s.publishes + 1
        ∧ (workerRun d item 6 s).time
            ≤ s.time + d.dRead + d.dDetect + d.dMarkup + d.dPublish + d.dFps) := by
  obtain ⟨hr, hdt, hmk, hpb, hfp⟩ := hd
  have h6 : ∀ (s : WorkerLoopState α), workerRun d item 6 s
      = workerStep d item (workerStep d item (workerStep d item (workerStep d item
          (workerStep d item (workerStep d item s))))) := fun s => rfl
  refine ⟨?_, ?_, ?_, ?_, ?_, ?_, ?_⟩
  · intro s
    exact ⟨rfl, rfl, rfl, rfl, rfl, rfl, rfl⟩
  · intro s b hne
    obtain ⟨pc, flag, q, reads, detects, publishes, time⟩ := s
    cases pc
    case atCheck => exact absurd rfl hne
    all_goals rfl
  · intro s h
    obtain ⟨pc, flag, q, reads, detects, publishes, time⟩ := s
    cases h
    rfl
  · intro s h hf
    obtain ⟨pc, flag, q, reads, detects, publishes, time⟩ := s
    cases h
    cases hf
    rfl
  · intro s h hf
    obtain ⟨pc, flag, q, reads, detects, publishes, time⟩ := s
    cases h
    cases hf
    rfl
  · intro s h n
    obtain ⟨pc, flag, q, reads, detects, publishes, time⟩ := s
    cases h
    induction n with
    | zero => rfl
    | succ n ih => exact ih
  · intro s hs
    obtain ⟨pc, flag, q, reads, detects, publishes, time⟩ := s
    cases hs
    cases pc
    case atRead =>
      refine ⟨rfl, Nat.le_succ detects, Nat.le_succ publishes, ?_⟩
      show time + d.dRead ≤ time + d.dRead + d.dDetect + d.dMarkup + d.dPublish + d.dFps
      linarith
    case atCheck =>
      refine ⟨rfl, Nat.le_succ detects, Nat.le_succ publishes, ?_⟩
      show time ≤ time + d.dRead + d.dDetect + d.dMarkup + d.dPublish + d.dFps
      linarith
    case atDetect =>
      refine ⟨rfl, Nat.le_refl _, Nat.le_refl _, ?_⟩
      show time + d.dDetect + d.dMarkup + d.dPublish + d.dFps + d.dRead
          ≤ time + d.dRead + d.dDetect + d.dMarkup + d.dPublish + d.dFps
      linarith
    case atMarkup =>
      refine ⟨rfl, Nat.le_succ detects, Nat.le_refl _, ?_⟩
      show time + d.dMarkup + d.dPublish + d.dFps + d.dRead
          ≤ time + d.dRead + d.dDetect + d.dMarkup + d.dPublish + d.dFps
      linarith
    case atPublish =>
      refine ⟨rfl, Nat.le_succ detects, Nat.le_refl _, ?_⟩
      show time + d.dPublish + d.dFps + d.dRead
          ≤ time + d.dRead + d.dDetect + d.dMarkup + d.dPublish + d.dFps
      linarith
    case atFps =>
      refine ⟨rfl, Nat.le_succ detects, Nat.le_succ publishes, ?_⟩
      show time + d.dFps + d.dRead
          ≤ time + d.dRead + d.dDetect + d.dMarkup + d.dPublish + d.dFps
      linarith
    case exited =>
      refine ⟨rfl, Nat.le_succ detects, Nat.le_succ publishes, ?_⟩
      show time ≤ time + d.dRead + d.dDetect + d.dMarkup + d.dPublish + d.dFps
      linarith

/-- C4 counterexample to the claim as stated: with the stop flag set just
after the check passed (program point `atDetect`), and a frame read that
takes 1 s against a 0.01 s inference and 0.01 s markup, the elapsed time
to exit exceeds the detect + markup (+ publish + FPS) budget — the exit
latency is bounded only when the frame-read wait is included. -/
theorem c4_latency_counterexample :
    (workerRun (⟨1, 1/100, 1/100, 0, 0⟩ : Durations) (fun _ => (0 : ℕ)) 6
        ⟨.atDetect, true, ⟨some 2, []⟩, 1, 0, 0, 0⟩).pc = .exited
    ∧ ¬ ((workerRun (⟨1, 1/100, 1/100, 0, 0⟩ : Durations) (fun _ => (0 : ℕ)) 6
          ⟨.atDetect, true, ⟨some 2, []⟩, 1, 0, 0, 0⟩).time
        ≤ (1 : ℚ) / 100 + 1 / 100 + 0 + 0) := by
  constructor
  · rfl
  · have ht : (workerRun (⟨1, 1/100, 1/100, 0, 0⟩ : Durations) (fun _ => (0 : ℕ)) 6
        ⟨.atDetect, true, ⟨some 2, []⟩, 1, 0, 0, 0⟩).time
        = 0 + 1/100 + 1/100 + 0 + 0 + 1 := rfl
    rw [ht]
    norm_num

/-- C4 witness: with all durations 0.1 s, from a flagged state at the
frame read the loop is exited within 6 steps. -/
theorem c4_stop_latency_witness :
    (⟨1/10, 1/10, 1/10, 1/10, 1/10⟩ : Durations).Nonneg
    ∧ (workerRun (⟨1/10, 1/10, 1/10, 1/10, 1/10⟩ : Durations) (fun _ => (0 : ℕ)) 6
        ⟨.atRead, true, ⟨some 2, []⟩, 0, 0, 0, 0⟩).pc = .exited := by
  have hd : (⟨1/10, 1/10, 1/10, 1/10, 1/10⟩ : Durations).Nonneg := by
    refine ⟨?_, ?_, ?_, ?_, ?_⟩ <;> norm_num
  refine ⟨hd, ?_⟩
  exact ((c4_stop_latency (⟨1/10, 1/10, 1/10, 1/10, 1/10⟩ : Durations)
    (fun _ => (0 : ℕ)) hd).2.2.2.2.2.2
    ⟨.atRead, true, ⟨some 2, []⟩, 0, 0, 0, 0⟩ rfl).1

/-- C3: one main-loop iteration performs a blocking `getResult` on each
worker in registration order (the fan-in reads the head worker's oldest
queued result first, then recurses on the rest), and — for the program's
two-camera configuration — produces the composite image stacking the two
workers' frames in registration order, together with the text block
listing, for each worker in order, its camera index, model id, inference
duration and every prediction's label and confidence. -/
theorem c3_main_loop_iteration (c0 c1 : CameraThread (FrameResult Row Dur Conf))
    (r0 r1 : FrameResult Row Dur Conf)
    (h0 : c0.results_q.queue.getLast? = some r0)
    (h1 : c1.results_q.queue.getLast? = some r1) :
    (∀ (c : CameraThread (FrameResult Row Dur Conf))
        (cs : List (CameraThread (FrameResult Row Dur Conf))),
        gatherResults (c :: cs)
          = c.results_q.queue.getLast?.bind fun r => (gatherResults cs).map fun rs => r :: rs)
    ∧ gatherResults [c0, c1] = some [r0, r1]
    ∧ mainLoopIteration [c0, c1]
        = some (some (r0.frame ++ r1.frame), cameraText r0 ++ cameraText r1) := by
  have hcons : ∀ (c : CameraThread (FrameResult Row Dur Conf))
      (cs : List (CameraThread (FrameResult Row Dur Conf))),
      gatherResults (c :: cs)
        = c.results_q.queue.getLast?.bind fun r => (gatherResults cs).map fun rs => r :: rs := by
    intro c cs
    simp only [gatherResults, get_results_wait_fst]
    cases hq : c.results_q.queue.getLast? <;> simp
  have hg : gatherResults [c0, c1] = some [r0, r1] := by
    rw [hcons, h0, hcons, h1]
    rfl
  refine ⟨hcons, hg, ?_⟩
  simp only [mainLoopIteration, hg]
  simp [compositeFrame, buildText, buildStep]

/-- C3 witness: two workers each holding one queued result; the iteration
returns the stacked frames and the two text groups in registration
order. -/
theorem c3_main_loop_iteration_witness :
    mainLoopIteration
      [{ (CameraThread.init 0 .DNN "m" : CameraThread (FrameResult ℕ ℕ ℕ)) with
          results_q := ⟨some 2, [⟨0, [10], ⟨3, [⟨"person", 1⟩]⟩, "m"⟩]⟩ },
       { (CameraThread.init 1 .DNN "m" : CameraThread (FrameResult ℕ ℕ ℕ)) with
          results_q := ⟨some 2, [⟨1, [20], ⟨4, []⟩, "m"⟩]⟩ }]
      = some (some ([10] ++ [20]),
          cameraText ⟨0, [10], ⟨3, [⟨"person", 1⟩]⟩, "m"⟩
            ++ cameraText ⟨1, [20], ⟨4, []⟩, "m"⟩) :=
  (c3_main_loop_iteration
    { (CameraThread.init 0 .DNN "m" : CameraThread (FrameResult ℕ ℕ ℕ)) with
        results_q := ⟨some 2, [⟨0, [10], ⟨3, [⟨"person", 1⟩]⟩, "m"⟩]⟩ }
    { (CameraThread.init 1 .DNN "m" : CameraThread (FrameResult ℕ ℕ ℕ)) with
        results_q := ⟨some 2, [⟨1, [20], ⟨4, []⟩, "m"⟩]⟩ }
    ⟨0, [10], ⟨3, [⟨"person", 1⟩]⟩, "m"⟩ ⟨1, [20], ⟨4, []⟩, "m"⟩ rfl rfl).2.2

/-- C7: whatever outcome the main loop body has — a normal `break`
(`Except.ok`) or an unrecovered exception (`Except.error`) — the `finally`
block runs the full cleanup pass: `stop()` then `join()` on every worker,
in registration order, none skipped; every worker ends with its stop flag
set, and the body's outcome then propagates unchanged. -/
theorem c7_shutdown_unconditional {E : Type u} (body : Except E Unit)
    (cameras : List (CameraThread α)) :
    (mainFinally body cameras).2.2
      = (cameras.flatMap fun c => [MainEvent.stopCalled c.idx, MainEvent.joinCalled c.idx])
        ++ [MainEvent.programEnding]
    ∧ (mainFinally body cameras).2.1 = cameras.map CameraThread.stop
    ∧ (mainFinally body cameras).1 = body := by
  refine ⟨?_, ?_, rfl⟩ <;> simp [mainFinally, shutdownPass_eq]

/-- C8: if an unhandled exception `e` escapes the detect loop, the thread
outcome is exactly that error (nothing catches, retries, or reports it —
the model load and capture open appear exactly once, before the loop, and
nothing follows the cleanup events), and the guaranteed-on-exit cleanup
still runs: the capture release (from the `with` scope) and the FPS stop
and summary (from `run`'s `finally`) appear after the loop's events on
this exit path, and on every exit path. -/
theorem c8_worker_cleanup {E : Type u} (loopEvents : List WorkerEvent) (e : E) :
    (runThread loopEvents (Except.error e)).1 = Except.error e
    ∧ (runThread loopEvents (Except.error e)).2
        = [WorkerEvent.startMsg, WorkerEvent.loadModel, WorkerEvent.openCapture,
           WorkerEvent.warmUp, WorkerEvent.fpsStart]
          ++ loopEvents
          ++ [WorkerEvent.releaseCapture, WorkerEvent.fpsStop,
              WorkerEvent.fpsSummary, WorkerEvent.exitMsg]
    ∧ (∀ (o : LoopOutcome E),
        (runThread loopEvents o).1 = o
        ∧ WorkerEvent.releaseCapture ∈ (runThread loopEvents o).2
        ∧ WorkerEvent.fpsStop ∈ (runThread loopEvents o).2
        ∧ WorkerEvent.fpsSummary ∈ (runThread loopEvents o).2) := by
  refine ⟨rfl, ?_, fun o => ⟨rfl, ?_, ?_, ?_⟩⟩ <;>
    simp [runThread, run_detection, withCapture]

/-- C10: the composite step indexes exactly `results[0]` and `results[1]`:
it is defined precisely when at least two results exist (a single-camera
run fails on the out-of-range access), its value ignores every result
beyond the second, while the text block still contains the lines of every
worker, including those beyond the second. -/
theorem c10_composite_first_two :
    (∀ (results : List (FrameResult Row Dur Conf)),
        (compositeFrame results).isSome ↔ 2 ≤ results.length)
    ∧ (∀ (r : FrameResult Row Dur Conf), compositeFrame [r] = none)
    ∧ (∀ (r0 r1 : FrameResult Row Dur Conf) (rest : List (FrameResult Row Dur Conf)),
        compositeFrame (r0 :: r1 :: rest) = some (r0.frame ++ r1.frame))
    ∧ (∀ (r0 r1 : FrameResult Row Dur Conf) (rest : List (FrameResult Row Dur Conf)),
        buildText ((r0 :: r1 :: rest).map some)
          = cameraText r0 ++ cameraText r1 ++ buildText (rest.map some)) := by
  refine ⟨?_, fun r => rfl, fun r0 r1 rest => by simp [compositeFrame], ?_⟩
  · intro results
    rcases results with _ | ⟨r0, _ | ⟨r1, rest⟩⟩
    · simp [compositeFrame]
    · simp [compositeFrame]
    · simp [compositeFrame]
  · intro r0 r1 rest
    rw [List.map_cons, List.map_cons, buildText_cons, buildText_cons, List.append_assoc]

end MultiCam
